import Mathlib

/-!
Verification of the ETL pipeline in `src/etl_spotify.py`.

The development shallowly embeds the pandas-based core of the pipeline:

* dataframes are lists of named, dtype-tagged columns of cell values;
* the two cleaning transforms (`limpiar_y_transformar_playlists` and
  `limpiar_y_transformar_tracks`) are embedded step by step: duplicate
  removal, null filling, date coercion, special-character stripping,
  IQR-based outlier suppression with median fill, and popularity binning;
* the loader (`cargar_en_mongodb`) is embedded over an abstract document
  store given by a per-document failure predicate, matching the unordered
  insert plus BulkWriteError handling of the code;
* the per-file driver (`procesar_archivo_csv`) is embedded over an abstract
  environment recording the outcome of each I/O action, so that its
  try/except control flow (chunked parse path with a whole-file fallback)
  becomes explicit.

Machine reals (pandas floats) are modelled as rationals; NaN is the
distinguished null value, as produced by `read_csv` for missing cells.
-/

namespace Etl

/-- A cell value of a dataframe: null (NaN/NaT), a number, a string, or a
parsed timestamp. -/
inductive Value where
  | vNull : Value
  | vNum (q : ℚ) : Value
  | vStr (s : String) : Value
  | vDate (t : ℤ) : Value
deriving DecidableEq

/-- The dtype of a pandas column, as far as the pipeline distinguishes them:
`select_dtypes(include=['number'])` and `select_dtypes(include=['object'])`
drive the transforms, `pd.to_datetime` produces datetime columns and
`pd.cut` a categorical one. -/
inductive DType where
  | numeric : DType
  | object : DType
  | datetime : DType
  | category : DType
deriving DecidableEq

/-- One named dataframe column with its dtype tag and cell data. -/
structure Column where
  name : String
  dtype : DType
  data : List Value
deriving DecidableEq

/-- A dataframe: an ordered list of columns. -/
structure DataFrame where
  cols : List Column
deriving DecidableEq

/-- Number of rows: length of the first column (0 for a column-less frame). -/
def DataFrame.nrows (df : DataFrame) : ℕ :=
  match df.cols with
  | [] => 0
  | c :: _ => c.data.length

/-- All columns hold exactly `nrows` cells. -/
def DataFrame.uniform (df : DataFrame) : Bool :=
  df.cols.all (fun c => c.data.length == df.nrows)

/-- The `i`-th row of a dataframe, as the list of the `i`-th cell of each
column. -/
def rowAt (df : DataFrame) (i : ℕ) : List Value :=
  df.cols.map (fun c => c.data.getD i Value.vNull)

/-- The rows of a dataframe in order. -/
def DataFrame.rowsOf (df : DataFrame) : List (List Value) :=
  (List.range df.nrows).map (rowAt df)

/-! ### Duplicate removal

`df.drop_duplicates(inplace=True)` keeps the first occurrence of each
distinct row (pandas compares NaN equal to NaN here, as does `=` on
`Value.vNull`).  We embed it as a boolean keep-mask over the rows — the
mask marks a row iff it did not already occur — applied to the data of
every column. -/

/-- Keep-mask for rows, carrying the set of rows already seen. -/
def dupMaskAux [DecidableEq α] (seen : List α) : List α → List Bool
  | [] => []
  | r :: rs => (if r ∈ seen then false else true) :: dupMaskAux (r :: seen) rs

/-- Apply a boolean keep-mask positionally to a list. -/
def filterByMask : List Bool → List α → List α
  | true :: bs, x :: xs => x :: filterByMask bs xs
  | false :: bs, _ :: xs => filterByMask bs xs
  | _, _ => []

/-- Row-level `drop_duplicates` with the default keep-first policy. -/
def dropDuplicatesRows [DecidableEq α] (rows : List α) : List α :=
  filterByMask (dupMaskAux [] rows) rows

/-- Dataframe-level `drop_duplicates`: the row keep-mask is applied to every
column; names and dtypes are untouched. -/
def dropDuplicatesDF (df : DataFrame) : DataFrame :=
  ⟨df.cols.map (fun c =>
    ⟨c.name, c.dtype, filterByMask (dupMaskAux [] df.rowsOf) c.data⟩)⟩

/-- First-occurrence subsequence, written the way the specification reads:
the first occurrence of the head is kept and every later equal row is
dropped before recursing.  Used to characterise `dropDuplicatesRows`. -/
def specDedup [DecidableEq α] : List α → List α
  | [] => []
  | a :: l => a :: specDedup (l.filter (fun x => ¬ x = a))
termination_by l => l.length
decreasing_by
  simp only [List.length_cons]
  exact Nat.lt_succ_of_le (List.length_filter_le _ _)

/-! ### Null filling with a string sentinel

`df['name'].fillna('Unknown Playlist', inplace=True)` (and the
`track_name` / `artist_name` analogues).  Filling a float column that
contains NaN with a string makes it an object column; with nothing to
fill, the dtype is unchanged. -/

/-- Fill nulls of every column named `colName` with the string `fill`. -/
def fillnaStr (colName fill : String) (df : DataFrame) : DataFrame :=
  ⟨df.cols.map (fun c =>
    if c.name = colName then
      ⟨c.name,
       if c.dtype = DType.numeric ∧ Value.vNull ∈ c.data then DType.object
       else c.dtype,
       c.data.map (fun v => if v = Value.vNull then Value.vStr fill else v)⟩
    else c)⟩

/-! ### Date coercion

Columns whose lowercased name contains `date` or `time` are run through
`pd.to_datetime(..., errors='coerce')`: the column becomes a datetime
column, nulls stay null and unparsable values are coerced to null.  The
parser itself is external library behaviour, so it enters the model as a
parameter. -/

/-- Whether the pattern occurs as a contiguous run starting at the head. -/
def startsWithList [DecidableEq α] : List α → List α → Bool
  | [], _ => true
  | _ :: _, [] => false
  | a :: as, b :: bs => a = b && startsWithList as bs

/-- Whether the pattern occurs as a contiguous run anywhere in the list. -/
def hasSubList [DecidableEq α] (pat : List α) : List α → Bool
  | [] => startsWithList pat []
  | b :: bs => startsWithList pat (b :: bs) || hasSubList pat bs

/-- Whether `pat` occurs as a contiguous substring of `s`. -/
def strHasSub (s pat : String) : Bool :=
  hasSubList pat.data s.data

/-- Python `str.lower()`, characterwise. -/
def strToLower (s : String) : String :=
  ⟨s.data.map Char.toLower⟩

/-- The column-selection test of the date step:
`'date' in col.lower() or 'time' in col.lower()`. -/
def isDateName (s : String) : Bool :=
  strHasSub (strToLower s) "date" || strHasSub (strToLower s) "time"

/-- One cell under `pd.to_datetime(..., errors='coerce')`: null stays null,
anything the parser accepts becomes a timestamp, anything else becomes
null. -/
def toDatetimeVal (parseDate : Value → Option ℤ) (v : Value) : Value :=
  match v with
  | Value.vNull => Value.vNull
  | v =>
    match parseDate v with
    | some t => Value.vDate t
    | none => Value.vNull

/-- The date-coercion step of the playlist transform. -/
def dateStep (parseDate : Value → Option ℤ) (df : DataFrame) : DataFrame :=
  ⟨df.cols.map (fun c =>
    if isDateName c.name then
      ⟨c.name, DType.datetime, c.data.map (toDatetimeVal parseDate)⟩
    else c)⟩

/-! ### Special-character stripping

`df[col].astype(str).str.replace(r'[^\w\s]', '', regex=True)` on every
object column.  `astype(str)` renders every cell as a string — in
particular NaN becomes the literal string `nan` — and the replacement
keeps exactly the word characters (alphanumeric or underscore, modelled on
the ASCII classes) and whitespace. -/

/-- A regex `\w` character: alphanumeric or underscore. -/
def isWordChar (c : Char) : Bool :=
  c.isAlphanum || c = '_'

/-- Remove every character that is neither a word character nor
whitespace. -/
def stripSpecial (s : String) : String :=
  ⟨s.data.filter (fun c => isWordChar c || c.isWhitespace)⟩

/-- Python `str()` of a cell as `astype(str)` applies it.  A null renders as
the literal `nan`.  Strings render as themselves.  The rendering of the
remaining numeric and timestamp cases abstracts the precise Python float
and timestamp formats; no property below depends on those strings. -/
def astypeStr : Value → String
  | Value.vStr s => s
  | Value.vNull => "nan"
  | Value.vNum q => toString q
  | Value.vDate t => toString t

/-- The text-cleaning step: every object column is cast to strings and
stripped of special characters. -/
def stripStep (df : DataFrame) : DataFrame :=
  ⟨df.cols.map (fun c =>
    if c.dtype = DType.object then
      ⟨c.name, DType.object,
       c.data.map (fun v => Value.vStr (stripSpecial (astypeStr v)))⟩
    else c)⟩

/-- The playlist transform `limpiar_y_transformar_playlists`: duplicate
removal, `name` null-fill, date coercion, text stripping, in that order,
on a copy of the input. -/
def limpiarYTransformarPlaylists (parseDate : Value → Option ℤ)
    (df : DataFrame) : DataFrame :=
  stripStep (dateStep parseDate
    (fillnaStr "name" "Unknown Playlist" (dropDuplicatesDF df)))

/-! ### Outlier suppression and median fill

For every numeric column the code computes `q1 = col.quantile(0.05)` and
`q3 = col.quantile(0.95)`, flags values outside
`[q1 - 1.5*iqr, q3 + 1.5*iqr]` as NaN, and fills every NaN of the column
with `col.median()` (the 0.5 quantile, computed after the flagging).
`Series.quantile` drops NaN, sorts the remaining values and linearly
interpolates at position `p * (count - 1)`. -/

/-- The numeric (non-null) entries of a column, in order. -/
def numsOf (data : List Value) : List ℚ :=
  data.filterMap (fun v =>
    match v with
    | Value.vNum q => some q
    | _ => none)

/-- Linear interpolation of a sorted list at position
`(num/den) * (length - 1)`: with `h = (num/den) * (length - 1)`,
`k = ⌊h⌋` and `g = h - k`, this is `s[k] + g * (s[k+1] - s[k])`
(the upper index clamps to `s[k]` at the right edge). -/
def interpAt (s : List ℚ) (num den : ℕ) : ℚ :=
  let t := s.length - 1
  let k := num * t / den
  let g : ℚ := ((num * t % den : ℕ) : ℚ) / (den : ℚ)
  let a := s.getD k 0
  let b := s.getD (k + 1) a
  a + g * (b - a)

/-- `Series.quantile(num/den)`: `none` (NaN) on a column with no numeric
values, otherwise linear interpolation over the sorted numeric values. -/
def quantileQ (vals : List ℚ) (num den : ℕ) : Option ℚ :=
  if vals.isEmpty then none
  else some (interpAt (List.insertionSort (· ≤ ·) vals) num den)

/-- The flagging `df.loc[(df[col] < lower_bound) | (df[col] > upper_bound),
col] = np.nan` with `lower_bound = q1 - 1.5*iqr`, `upper_bound =
q3 + 1.5*iqr` and `iqr = q3 - q1`: numeric cells outside the bounds become
null; null cells compare false with both bounds and stay unchanged. -/
def flagOutliers (q1 q3 : ℚ) (data : List Value) : List Value :=
  data.map (fun v =>
    match v with
    | Value.vNum q =>
      if q < q1 - (3 : ℚ)/2 * (q3 - q1) ∨ q3 + (3 : ℚ)/2 * (q3 - q1) < q
      then Value.vNull else Value.vNum q
    | v => v)

/-- The fill `df[col].fillna(median, inplace=True)` with a defined
median. -/
def fillNulls (m : ℚ) (data : List Value) : List Value :=
  data.map (fun v => if v = Value.vNull then Value.vNum m else v)

/-- Outlier suppression followed by median fill on the data of one numeric
column.  When the column has no numeric value, both quantiles are NaN: the
bound comparisons are all false and filling with a NaN median is a no-op,
so the data is returned unchanged; likewise filling is skipped when the
median after flagging is NaN. -/
def outlierFillData (data : List Value) : List Value :=
  match quantileQ (numsOf data) 1 20, quantileQ (numsOf data) 19 20 with
  | some q1, some q3 =>
    match quantileQ (numsOf (flagOutliers q1 q3 data)) 1 2 with
    | some m => fillNulls m (flagOutliers q1 q3 data)
    | none => flagOutliers q1 q3 data
  | _, _ => data

/-- The numeric-normalisation step: outlier suppression and median fill on
every numeric column. -/
def numericStep (df : DataFrame) : DataFrame :=
  ⟨df.cols.map (fun c =>
    if c.dtype = DType.numeric then ⟨c.name, c.dtype, outlierFillData c.data⟩
    else c)⟩

/-- `pd.cut(popularity, bins=[0,20,40,60,80,100], labels=[...])` on one
cell: the default bins are left-open and right-closed, `(0,20], (20,40],
(40,60], (60,80], (80,100]`; anything outside their union — including
exactly 0 — gets the null category, as does a null cell. -/
def popCut (v : Value) : Value :=
  match v with
  | Value.vNum q =>
    if 0 < q ∧ q ≤ 20 then Value.vStr "Very Low"
    else if 20 < q ∧ q ≤ 40 then Value.vStr "Low"
    else if 40 < q ∧ q ≤ 60 then Value.vStr "Medium"
    else if 60 < q ∧ q ≤ 80 then Value.vStr "High"
    else if 80 < q ∧ q ≤ 100 then Value.vStr "Very High"
    else Value.vNull
  | _ => Value.vNull

/-- Column assignment `df[name] = col`: replace the column of that name if
present, else append it. -/
def setCol (df : DataFrame) (c : Column) : DataFrame :=
  if df.cols.any (fun c2 => c2.name == c.name) then
    ⟨df.cols.map (fun c2 => if c2.name == c.name then c else c2)⟩
  else ⟨df.cols ++ [c]⟩

/-- The popularity-binning step: when a `popularity` column exists, assign
a categorical `popularity_category` column from it. -/
def popStep (df : DataFrame) : DataFrame :=
  match df.cols.find? (fun c => c.name == "popularity") with
  | some c =>
    setCol df ⟨"popularity_category", DType.category, c.data.map popCut⟩
  | none => df

/-- The track transform `limpiar_y_transformar_tracks`: duplicate removal,
`track_name` and `artist_name` null-fill, numeric normalisation,
popularity binning, in that order, on a copy of the input. -/
def limpiarYTransformarTracks (df : DataFrame) : DataFrame :=
  popStep (numericStep (fillnaStr "artist_name" "Unknown Artist"
    (fillnaStr "track_name" "Unknown Track" (dropDuplicatesDF df))))

/-! ### The loader `cargar_en_mongodb`

The records of a cleaned frame are split into consecutive slices
`records[i*batch_size : min((i+1)*batch_size, total)]` and each non-empty
slice is written with `insert_many(..., ordered=False)`.  The document
store is abstracted by a per-document failure predicate: an unordered
insert inserts exactly the non-failing documents, and when some documents
fail it raises `BulkWriteError` carrying them — which the code catches,
logs as a warning and ignores, continuing with the next slice.  After the
loop the (idempotent) index declarations run and the function returns
`True`.  Any other store exception would propagate; that fatal path is
modelled in `CsvEnv.loadFrame` below. -/

/-- The slices `records[i*batchSize : min((i+1)*batchSize, total)]` for
`i < ceil(total / batchSize)` (the code computes the slice count as
`(total + batch_size - 1) // batch_size`). -/
def loadBatches (records : List α) (batchSize : ℕ) : List (List α) :=
  (List.range ((records.length + batchSize - 1) / batchSize)).map (fun i =>
    (records.drop (i * batchSize)).take
      (min ((i + 1) * batchSize) records.length - i * batchSize))

/-- Result of one unordered `insert_many` against the abstract store:
the documents inserted and the per-document failures. -/
def insertManyUnordered (fails : α → Bool) (batch : List α) :
    List α × List α :=
  (batch.filter (fun d => !(fails d)), batch.filter fails)

/-- Outcome of a whole `cargar_en_mongodb` call: datos insertados,
per-document warnings, and the returned success flag. -/
structure LoadOutcome (α : Type) where
  ok : Bool
  inserted : List α
  warnings : List α

/-- The write loop of `cargar_en_mongodb`: every non-empty slice is
written unordered; per-document failures are collected as warnings and the
loop continues with the next slice. -/
def loadLoop (fails : α → Bool) : List (List α) → List α × List α
  | [] => ([], [])
  | b :: rest =>
    let r := loadLoop fails rest
    if b.isEmpty then r
    else
      let ins := insertManyUnordered fails b
      (ins.1 ++ r.1, ins.2 ++ r.2)

/-- `cargar_en_mongodb` over the abstract store. -/
def cargarEnMongodb (fails : α → Bool) (records : List α)
    (batchSize : ℕ) : LoadOutcome α :=
  let r := loadLoop fails (loadBatches records batchSize)
  ⟨true, r.1, r.2⟩

/-! ### The per-file driver `procesar_archivo_csv`

The body is one big `try` around the sample read, the chunked read and
the transform-and-load loop; on any exception it falls back to a
whole-file read with `engine='python'` followed by one transform-and-load
of the whole frame, and only an exception on that second path propagates.
The I/O actions are abstracted into an environment of `Except` outcomes;
the driver's own control flow is embedded verbatim. -/

/-- Outcomes of the external actions of one `procesar_archivo_csv` call:
the 5-row sample read, the chunked read, the permissive whole-file read,
and the result of loading one (transformed) frame — `Except.error` models
a raised exception such as a lost destination connection. -/
structure CsvEnv (F : Type) where
  sampleRead : Except String Unit
  chunkedRead : Except String (List F)
  wholeRead : Except String F
  loadFrame : F → Except String Bool

/-- Whether an `Except` is an error. -/
def exceptErr : Except ε α → Bool
  | Except.error _ => true
  | Except.ok _ => false

/-- The chunk loop: transform and load each chunk until one load raises.
Returns the frames passed to the loader and the loop outcome. -/
def loadChunks (load : F → Except String Bool) (tf : F → F) :
    List F → List F × Except String Unit
  | [] => ([], Except.ok ())
  | c :: cs =>
    let d := tf c
    match load d with
    | Except.ok _ =>
      let r := loadChunks load tf cs
      (d :: r.1, r.2)
    | Except.error e => ([d], Except.error e)

/-- Observable outcome of `procesar_archivo_csv`: the returned value or the
propagated exception, whether the fallback path ran, and every frame
handed to the loader, in order. -/
structure ProcOutcome (F : Type) where
  result : Except String Bool
  usedFallback : Bool
  loadCalls : List F

/-- The fallback path: whole-file read, transform, one load. -/
def runFallback (env : CsvEnv F) (tf : F → F) (calls : List F) :
    ProcOutcome F :=
  match env.wholeRead with
  | Except.error e2 => ⟨Except.error e2, true, calls⟩
  | Except.ok w =>
    let d := tf w
    match env.loadFrame d with
    | Except.ok _ => ⟨Except.ok true, true, calls ++ [d]⟩
    | Except.error e2 => ⟨Except.error e2, true, calls ++ [d]⟩

/-- `procesar_archivo_csv`: the primary chunked path under a catch-all
`except` whose handler is the fallback path. -/
def procesarArchivoCsv (env : CsvEnv F) (tf : F → F) : ProcOutcome F :=
  match env.sampleRead with
  | Except.error _ => runFallback env tf []
  | Except.ok _ =>
    match env.chunkedRead with
    | Except.error _ => runFallback env tf []
    | Except.ok chunks =>
      let r := loadChunks env.loadFrame tf chunks
      match r.2 with
      | Except.ok _ => ⟨Except.ok true, false, r.1⟩
      | Except.error _ => runFallback env tf r.1

/-- Whether the primary (sample read, chunked read, chunk loop) path raises:
the condition under which the code's `except` handler runs. -/
def primaryFails (env : CsvEnv F) (tf : F → F) : Bool :=
  match env.sampleRead with
  | Except.error _ => true
  | Except.ok _ =>
    match env.chunkedRead with
    | Except.error _ => true
    | Except.ok chunks => exceptErr (loadChunks env.loadFrame tf chunks).2

/-- Whether the fallback path raises. -/
def fallbackFails (env : CsvEnv F) (tf : F → F) : Bool :=
  match env.wholeRead with
  | Except.error _ => true
  | Except.ok w => exceptErr (env.loadFrame (tf w))

/-! ### Mutation discipline of the transforms

Both transforms start with `df = <input>.copy()` and apply every
subsequent operation in place on the copy.  To make the difference between
the copy and an alias observable, the transforms are replayed on an
explicit heap of frames: the input lives at one reference, `copy`
allocates a fresh reference, and each in-place pandas operation mutates
the frame at the fresh reference. -/

/-- Replace the frame at reference `r` by `f` of itself. -/
def heapMut (h : List DataFrame) (r : ℕ) (f : DataFrame → DataFrame) :
    List DataFrame :=
  h.set r (f (h.getD r ⟨[]⟩))

/-- Heap replay of the playlist transform: copy, then the four in-place
cleaning operations on the copy; returns the heap and the reference of
the result. -/
def limpiarPlaylistsHeap (parseDate : Value → Option ℤ)
    (h : List DataFrame) (r : ℕ) : List DataFrame × ℕ :=
  let d := h.length
  let h1 := h ++ [h.getD r ⟨[]⟩]
  let h2 := heapMut h1 d dropDuplicatesDF
  let h3 := heapMut h2 d (fillnaStr "name" "Unknown Playlist")
  let h4 := heapMut h3 d (dateStep parseDate)
  let h5 := heapMut h4 d stripStep
  (h5, d)

/-- Heap replay of the track transform. -/
def limpiarTracksHeap (h : List DataFrame) (r : ℕ) :
    List DataFrame × ℕ :=
  let d := h.length
  let h1 := h ++ [h.getD r ⟨[]⟩]
  let h2 := heapMut h1 d dropDuplicatesDF
  let h3 := heapMut h2 d (fillnaStr "track_name" "Unknown Track")
  let h4 := heapMut h3 d (fillnaStr "artist_name" "Unknown Artist")
  let h5 := heapMut h4 d numericStep
  let h6 := heapMut h5 d popStep
  (h6, d)

/-- A column with at least one numeric (non-null) cell. -/
def hasNumVal (c : Column) : Bool :=
  c.data.any (fun v =>
    match v with
    | Value.vNum _ => true
    | _ => false)

/-! ## Helper lemmas about the loader -/

lemma loadBatches_join_take (records : List α) (bs : ℕ) (k : ℕ) :
    ((List.range k).map (fun i =>
      (records.drop (i * bs)).take
        (min ((i + 1) * bs) records.length - i * bs))).flatten
    = records.take (min (k * bs) records.length) := by
  induction k with
  | zero => simp
  | succ k ih =>
    rw [List.range_succ, List.map_append, List.flatten_append]
    simp only [List.map_cons, List.map_nil, List.flatten_cons, List.flatten_nil,
      List.append_nil]
    rw [ih]
    have hsucc : (k + 1) * bs = k * bs + bs := by ring
    rw [hsucc]
    generalize k * bs = A
    by_cases hk : records.length ≤ A
    · have h1 : min A records.length = records.length := by omega
      have h2 : min (A + bs) records.length = records.length := by omega
      rw [h1, h2, List.take_length, List.drop_eq_nil_of_le hk]
      simp
    · push_neg at hk
      have h1 : min A records.length = A := by omega
      rw [h1, ← List.take_add]
      congr 1
      omega

lemma loadBatches_join (records : List α) (bs : ℕ) (hbs : 0 < bs) :
    (loadBatches records bs).flatten = records := by
  unfold loadBatches
  rw [loadBatches_join_take]
  have hqb : records.length ≤ ((records.length + bs - 1) / bs) * bs := by
    have hdm := Nat.div_add_mod (records.length + bs - 1) bs
    have hr := Nat.mod_lt (records.length + bs - 1) hbs
    rw [Nat.mul_comm]
    generalize hM : bs * ((records.length + bs - 1) / bs) = M at *
    omega
  rw [min_eq_right hqb, List.take_length]

lemma loadBatches_size (records : List α) (bs : ℕ) :
    ∀ b ∈ loadBatches records bs, b.length ≤ bs := by
  intro b hb
  unfold loadBatches at hb
  rw [List.mem_map] at hb
  obtain ⟨i, _, rfl⟩ := hb
  refine le_trans (List.length_take_le _ _) ?_
  have hsucc : (i + 1) * bs = i * bs + bs := by ring
  rw [hsucc]
  generalize i * bs = A
  omega

lemma loadLoop_eq (fails : α → Bool) (bsL : List (List α)) :
    loadLoop fails bsL =
      (bsL.flatten.filter (fun d => !(fails d)), bsL.flatten.filter fails) := by
  induction bsL with
  | nil => simp [loadLoop]
  | cons b rest ih =>
    simp only [loadLoop, ih, List.flatten_cons, List.filter_append,
      insertManyUnordered]
    by_cases hb : b.isEmpty
    · rw [List.isEmpty_iff.mp hb]
      simp
    · simp [hb]

/-- C7: the loader splits the cleaned batch into consecutive sub-batches of
size at most the sub-batch size, whose concatenation in write order is
exactly the original record list — every record written once, in order. -/
theorem c7_loader_partitions_batch (α : Type) (records : List α) (bs : ℕ)
    (hbs : 0 < bs) :
    (loadBatches records bs).flatten = records ∧
      ∀ b ∈ loadBatches records bs, b.length ≤ bs :=
  ⟨loadBatches_join records bs hbs, loadBatches_size records bs⟩

/-- Witness for C7 at a concrete batch of 7 records and sub-batch size 3. -/
theorem c7_loader_partitions_batch_witness :
    0 < 3 ∧ ((loadBatches (List.range 7) 3).flatten = List.range 7 ∧
      ∀ b ∈ loadBatches (List.range 7) 3, b.length ≤ 3) :=
  ⟨by decide, c7_loader_partitions_batch ℕ (List.range 7) 3 (by decide)⟩

/-- C5: per-document (bulk write) failures in a sub-batch are collected as
warnings, the remaining documents and sub-batches are still written, and
the load returns success: the inserted documents are exactly the
non-failing records and the warnings exactly the failing ones. -/
theorem c5_loader_tolerates_document_failures (α : Type) (fails : α → Bool)
    (records : List α) (bs : ℕ) (hbs : 0 < bs) :
    (cargarEnMongodb fails records bs).ok = true ∧
    (cargarEnMongodb fails records bs).inserted
      = records.filter (fun d => !(fails d)) ∧
    (cargarEnMongodb fails records bs).warnings = records.filter fails := by
  have h := loadBatches_join records bs hbs
  simp [cargarEnMongodb, loadLoop_eq, h]

set_option maxRecDepth 10000 in
/-- Witness for C5 at the spec scenario: 1000 documents in one sub-batch of
which exactly 2 (duplicate keys) fail — 998 inserted, 2 warnings, overall
success. -/
theorem c5_loader_tolerates_document_failures_witness :
    0 < 1000 ∧
    (cargarEnMongodb (fun n : ℕ => decide (n < 2)) (List.range 1000) 1000).ok
      = true ∧
    (cargarEnMongodb (fun n : ℕ => decide (n < 2)) (List.range 1000)
        1000).inserted
      = (List.range 1000).filter (fun n => !(decide (n < 2))) ∧
    (cargarEnMongodb (fun n : ℕ => decide (n < 2)) (List.range 1000)
        1000).warnings
      = (List.range 1000).filter (fun n => decide (n < 2)) ∧
    ((List.range 1000).filter (fun n => !(decide (n < 2)))).length = 998 ∧
    ((List.range 1000).filter (fun n => decide (n < 2))).length = 2 := by
  have h := c5_loader_tolerates_document_failures ℕ
    (fun n : ℕ => decide (n < 2)) (List.range 1000) 1000 (by decide)
  exact ⟨by decide, h.1, h.2.1, h.2.2, by decide, by decide⟩

/-! ## The per-file driver: fallback condition -/

/-- C4 (amended): the fallback whole-file parse runs exactly when the
primary path raises — and the primary path includes the per-chunk loads,
so a load (e.g. connection) error also triggers the fallback; the call
propagates an error exactly when the primary path and the fallback path
both raise. -/
theorem c4_fallback_condition (F : Type) (env : CsvEnv F) (tf : F → F) :
    (procesarArchivoCsv env tf).usedFallback = primaryFails env tf ∧
    exceptErr (procesarArchivoCsv env tf).result
      = (primaryFails env tf && fallbackFails env tf) := by
  unfold procesarArchivoCsv primaryFails runFallback fallbackFails
  cases hs : env.sampleRead with
  | error e =>
    cases hw : env.wholeRead with
    | error e2 => simp [exceptErr]
    | ok w =>
      cases hl : env.loadFrame (tf w) with
      | error e2 => simp [hl, exceptErr]
      | ok b => simp [hl, exceptErr]
  | ok u =>
    cases hc : env.chunkedRead with
    | error e =>
      cases hw : env.wholeRead with
      | error e2 => simp [exceptErr]
      | ok w =>
        cases hl : env.loadFrame (tf w) with
        | error e2 => simp [hl, exceptErr]
        | ok b => simp [hl, exceptErr]
    | ok chunks =>
      cases hr : (loadChunks env.loadFrame tf chunks).2 with
      | ok u2 => simp [hr, exceptErr]
      | error e =>
        cases hw : env.wholeRead with
        | error e2 => simp [hr, hw, exceptErr]
        | ok w =>
          cases hl : env.loadFrame (tf w) with
          | error e2 => simp [hr, hw, hl, exceptErr]
          | ok b => simp [hr, hw, hl, exceptErr]

/-- The abstract environment refuting C4 as stated: both reads succeed and
the destination rejects every load with a connection error. -/
def envC4 : CsvEnv ℕ :=
  ⟨Except.ok (), Except.ok [7], Except.ok 7,
   fun _ => Except.error "connection refused"⟩

/-- Counterexample to C4 as stated: with a successful chunked parse and a
load that raises a connection error, the fallback whole-file path still
runs (so the fallback is not reserved for parse errors), and the failing
chunk's frame is handed to the loader twice — the error is retried via the
fallback rather than being propagated at once. -/
theorem c4_counterexample :
    (procesarArchivoCsv envC4 id).usedFallback = true ∧
    envC4.sampleRead = Except.ok () ∧
    envC4.chunkedRead = Except.ok [7] ∧
    (procesarArchivoCsv envC4 id).loadCalls = [7, 7] ∧
    (procesarArchivoCsv envC4 id).result
      = Except.error "connection refused" :=
  ⟨rfl, rfl, rfl, rfl, rfl⟩

/-! ## Heap lemmas for the mutation discipline -/

lemma getD_append_lt (l : List α) (x d : α) (r : ℕ) (hr : r < l.length) :
    (l ++ [x]).getD r d = l.getD r d := by
  simp [List.getD, List.getElem?_append_left hr]

lemma getD_concat_len (l : List α) (x d : α) :
    (l ++ [x]).getD l.length d = x := by
  simp [List.getD]

lemma heapMut_length (h : List DataFrame) (d : ℕ)
    (f : DataFrame → DataFrame) : (heapMut h d f).length = h.length := by
  simp [heapMut]

lemma heapMut_getD_other (h : List DataFrame) (d : ℕ)
    (f : DataFrame → DataFrame) (j : ℕ) (hj : d ≠ j) :
    (heapMut h d f).getD j ⟨[]⟩ = h.getD j ⟨[]⟩ := by
  simp [heapMut, List.getD, List.getElem?_set_ne hj]

lemma heapMut_getD_same (h : List DataFrame) (d : ℕ)
    (f : DataFrame → DataFrame) (hd : d < h.length) :
    (heapMut h d f).getD d ⟨[]⟩ = f (h.getD d ⟨[]⟩) := by
  simp [heapMut, List.getD, List.getElem?_set_self, hd]

/-- C8: both transforms operate on a copy: replayed on an explicit heap,
the frame at the caller's reference is unchanged after either transform,
and the frame at the returned reference is the pure transform of the
input frame. -/
theorem c8_transforms_leave_input_unchanged (parseDate : Value → Option ℤ)
    (h : List DataFrame) (r : ℕ) (hr : r < h.length) :
    ((limpiarPlaylistsHeap parseDate h r).1.getD r ⟨[]⟩ = h.getD r ⟨[]⟩ ∧
     (limpiarPlaylistsHeap parseDate h r).1.getD
         (limpiarPlaylistsHeap parseDate h r).2 ⟨[]⟩
       = limpiarYTransformarPlaylists parseDate (h.getD r ⟨[]⟩)) ∧
    ((limpiarTracksHeap h r).1.getD r ⟨[]⟩ = h.getD r ⟨[]⟩ ∧
     (limpiarTracksHeap h r).1.getD (limpiarTracksHeap h r).2 ⟨[]⟩
       = limpiarYTransformarTracks (h.getD r ⟨[]⟩)) := by
  have hne : h.length ≠ r := by omega
  have hlen : (h ++ [h.getD r ⟨[]⟩]).length = h.length + 1 := by simp
  have hdlt : h.length < (h ++ [h.getD r ⟨[]⟩]).length := by omega
  constructor
  · unfold limpiarPlaylistsHeap
    constructor
    · rw [heapMut_getD_other _ _ _ _ hne, heapMut_getD_other _ _ _ _ hne,
        heapMut_getD_other _ _ _ _ hne, heapMut_getD_other _ _ _ _ hne,
        getD_append_lt _ _ _ _ hr]
    · rw [heapMut_getD_same _ _ _ (by
          rw [heapMut_length, heapMut_length, heapMut_length]; exact hdlt),
        heapMut_getD_same _ _ _ (by
          rw [heapMut_length, heapMut_length]; exact hdlt),
        heapMut_getD_same _ _ _ (by rw [heapMut_length]; exact hdlt),
        heapMut_getD_same _ _ _ hdlt, getD_concat_len]
      rfl
  · unfold limpiarTracksHeap
    constructor
    · rw [heapMut_getD_other _ _ _ _ hne, heapMut_getD_other _ _ _ _ hne,
        heapMut_getD_other _ _ _ _ hne, heapMut_getD_other _ _ _ _ hne,
        heapMut_getD_other _ _ _ _ hne, getD_append_lt _ _ _ _ hr]
    · rw [heapMut_getD_same _ _ _ (by
          rw [heapMut_length, heapMut_length, heapMut_length, heapMut_length]
          exact hdlt),
        heapMut_getD_same _ _ _ (by
          rw [heapMut_length, heapMut_length, heapMut_length]; exact hdlt),
        heapMut_getD_same _ _ _ (by
          rw [heapMut_length, heapMut_length]; exact hdlt),
        heapMut_getD_same _ _ _ (by rw [heapMut_length]; exact hdlt),
        heapMut_getD_same _ _ _ hdlt, getD_concat_len]
      rfl

/-- Witness for C8 at a one-frame heap. -/
theorem c8_transforms_leave_input_unchanged_witness :
    0 < ([(⟨[⟨"name", DType.object, [Value.vNull]⟩]⟩ : DataFrame)] :
        List DataFrame).length ∧
    ((limpiarPlaylistsHeap (fun _ => none)
        [⟨[⟨"name", DType.object, [Value.vNull]⟩]⟩] 0).1.getD 0 ⟨[]⟩
      = ([(⟨[⟨"name", DType.object, [Value.vNull]⟩]⟩ : DataFrame)] :
          List DataFrame).getD 0 ⟨[]⟩) := by
  have h := c8_transforms_leave_input_unchanged (fun _ => none)
    [⟨[⟨"name", DType.object, [Value.vNull]⟩]⟩] 0 (by decide)
  exact ⟨by decide, h.1.1⟩

/-! ## Duplicate removal keeps first occurrences -/

lemma filterByMask_dupMaskAux [DecidableEq α] (l : List α) :
    ∀ seen : List α,
      filterByMask (dupMaskAux seen l) l
        = specDedup (l.filter (fun x => x ∉ seen)) := by
  induction l with
  | nil => intro seen; simp [dupMaskAux, filterByMask, specDedup]
  | cons a l ih =>
    intro seen
    by_cases ha : a ∈ seen
    · rw [show dupMaskAux seen (a :: l) = false :: dupMaskAux (a :: seen) l
          from by simp [dupMaskAux, ha]]
      rw [show filterByMask (false :: dupMaskAux (a :: seen) l) (a :: l)
          = filterByMask (dupMaskAux (a :: seen) l) l from rfl]
      rw [ih (a :: seen)]
      rw [List.filter_cons_of_neg (by simpa using ha)]
      congr 1
      apply List.filter_congr
      intro x _
      apply decide_eq_decide.mpr
      simp only [List.mem_cons, not_or]
      constructor
      · rintro ⟨_, h2⟩; exact h2
      · intro h2; exact ⟨fun hxa => h2 (by rw [hxa]; exact ha), h2⟩
    · rw [show dupMaskAux seen (a :: l) = true :: dupMaskAux (a :: seen) l
          from by simp [dupMaskAux, ha]]
      rw [show filterByMask (true :: dupMaskAux (a :: seen) l) (a :: l)
          = a :: filterByMask (dupMaskAux (a :: seen) l) l from rfl]
      rw [ih (a :: seen)]
      rw [List.filter_cons_of_pos (by simpa using ha)]
      rw [show specDedup (a :: l.filter (fun x => x ∉ seen))
          = a :: specDedup ((l.filter (fun x => x ∉ seen)).filter
              (fun x => ¬ x = a)) from by simp [specDedup]]
      congr 1
      congr 1
      rw [List.filter_filter]
      apply List.filter_congr
      intro x _
      show decide (x ∉ a :: seen) = (decide (¬ x = a) && decide (x ∉ seen))
      rcases Decidable.em (x = a) with hxa | hxa
      · simp [hxa, ha, List.mem_cons]
      · simp [hxa, List.mem_cons]

lemma dropDuplicatesRows_eq_specDedup [DecidableEq α] (l : List α) :
    dropDuplicatesRows l = specDedup l := by
  unfold dropDuplicatesRows
  rw [filterByMask_dupMaskAux l []]
  congr 1
  simp

lemma mem_specDedup [DecidableEq α] (x : α) (l : List α) :
    x ∈ specDedup l ↔ x ∈ l := by
  induction l using specDedup.induct with
  | case1 => simp [specDedup]
  | case2 a l ih =>
    rw [show specDedup (a :: l)
        = a :: specDedup (l.filter (fun y => ¬ y = a)) from by simp [specDedup]]
    simp only [List.mem_cons, ih, List.mem_filter]
    constructor
    · rintro (rfl | ⟨h1, _⟩)
      · exact Or.inl rfl
      · exact Or.inr h1
    · rintro (rfl | h1)
      · exact Or.inl rfl
      · rcases Decidable.em (x = a) with rfl | hxa
        · exact Or.inl rfl
        · exact Or.inr ⟨h1, by simpa using hxa⟩

lemma specDedup_sublist [DecidableEq α] (l : List α) :
    (specDedup l).Sublist l := by
  induction l using specDedup.induct with
  | case1 => simp [specDedup]
  | case2 a l ih =>
    rw [show specDedup (a :: l)
        = a :: specDedup (l.filter (fun y => ¬ y = a)) from by simp [specDedup]]
    exact (ih.trans (List.filter_sublist l)).cons₂ a

lemma specDedup_nodup [DecidableEq α] (l : List α) :
    (specDedup l).Nodup := by
  induction l using specDedup.induct with
  | case1 => simp [specDedup]
  | case2 a l ih =>
    rw [show specDedup (a :: l)
        = a :: specDedup (l.filter (fun y => ¬ y = a)) from by simp [specDedup]]
    refine List.nodup_cons.mpr ⟨?_, ih⟩
    intro hmem
    have h1 := (mem_specDedup a _).mp hmem
    rw [List.mem_filter] at h1
    simp at h1

/-- C9: the duplicate-removal step shared by both transforms keeps exactly
the first occurrence of each distinct row (rows compared by full equality,
nulls comparing equal) and preserves the relative order of the kept rows:
it equals the first-occurrence subsequence of the input, is an
order-preserving sublist, has no duplicate rows, and keeps exactly the
rows of the input. -/
theorem c9_dedup_keeps_first_occurrences (l : List (List Value)) :
    dropDuplicatesRows l = specDedup l ∧
    (dropDuplicatesRows l).Sublist l ∧
    (dropDuplicatesRows l).Nodup ∧
    (∀ r : List Value, r ∈ dropDuplicatesRows l ↔ r ∈ l) := by
  rw [dropDuplicatesRows_eq_specDedup]
  exact ⟨rfl, specDedup_sublist l, specDedup_nodup l,
    fun r => mem_specDedup r l⟩

/-! ## The playlist transform and its text columns -/

lemma isDateName_name_false : isDateName "name" = false := by decide

/-- C6 (amended): the `name` field of every record produced by the playlist
transform is never null (the null-fill runs before the text cleaning; the
text cleaning can, however, produce an empty string from a name made of
stripped characters only). -/
theorem c6_playlist_name_never_null (parseDate : Value → Option ℤ)
    (df : DataFrame) (c : Column)
    (hc : c ∈ (limpiarYTransformarPlaylists parseDate df).cols)
    (hname : c.name = "name") :
    ∀ v ∈ c.data, v ≠ Value.vNull := by
  intro v hv
  unfold limpiarYTransformarPlaylists at hc
  simp only [stripStep] at hc
  rw [List.mem_map] at hc
  obtain ⟨c1, hc1, hfc⟩ := hc
  by_cases hdt : c1.dtype = DType.object
  · rw [if_pos hdt] at hfc
    rw [← hfc] at hv
    simp only [] at hv
    rw [List.mem_map] at hv
    obtain ⟨w, _, rfl⟩ := hv
    simp
  · rw [if_neg hdt] at hfc
    subst hfc
    simp only [dateStep] at hc1
    rw [List.mem_map] at hc1
    obtain ⟨c2, hc2, hfc2⟩ := hc1
    have hname2 : c2.name = "name" := by
      by_cases hd : isDateName c2.name
      · rw [if_pos hd] at hfc2
        rw [← hfc2] at hname
        exact hname
      · rw [if_neg hd] at hfc2
        rw [hfc2]
        exact hname
    have hc12 : c1 = c2 := by
      rw [← hfc2, if_neg (by rw [hname2, isDateName_name_false]; simp)]
    subst hc12
    simp only [fillnaStr] at hc2
    rw [List.mem_map] at hc2
    obtain ⟨c3, _, hfc3⟩ := hc2
    by_cases hn3 : c3.name = "name"
    · rw [if_pos hn3] at hfc3
      rw [← hfc3] at hv
      simp only [] at hv
      rw [List.mem_map] at hv
      obtain ⟨w, _, rfl⟩ := hv
      by_cases hw : w = Value.vNull
      · rw [if_pos hw]; simp
      · rw [if_neg hw]; exact hw
    · rw [if_neg hn3] at hfc3
      rw [← hfc3] at hname
      exact absurd hname hn3

/-- The playlist frame witnessing C6: one record with a null name. -/
def dfC6 : DataFrame := ⟨[⟨"name", DType.object, [Value.vNull]⟩]⟩

/-- Witness for C6 at a one-record frame with a null name: the output name
is the non-null sentinel. -/
theorem c6_playlist_name_never_null_witness :
    ((⟨"name", DType.object, [Value.vStr "Unknown Playlist"]⟩ : Column) ∈
      (limpiarYTransformarPlaylists (fun _ => none) dfC6).cols) ∧
    Value.vStr "Unknown Playlist" ≠ Value.vNull := by
  refine ⟨by decide, ?_⟩
  exact c6_playlist_name_never_null (fun _ => none) dfC6
    ⟨"name", DType.object, [Value.vStr "Unknown Playlist"]⟩ (by decide) rfl
    (Value.vStr "Unknown Playlist") (by decide)

/-- The playlist frame refuting C6 as stated: a name of punctuation only. -/
def dfC6x : DataFrame := ⟨[⟨"name", DType.object, [Value.vStr "!!!"]⟩]⟩

/-- Counterexample to C6 as stated: a non-null name consisting only of
special characters is stripped to the empty string, so the output `name`
can be the empty string. -/
theorem c6_counterexample :
    (limpiarYTransformarPlaylists (fun _ => none) dfC6x).cols
      = [⟨"name", DType.object, [Value.vStr ""]⟩] ∧
    ¬ (Value.vStr "" ≠ Value.vNull → Value.vStr "" ≠ Value.vStr "") := by
  exact ⟨by decide, by decide⟩

/-- C10 (amended): in the playlist transform every column that is still an
object (text) column at the stripping step — i.e. every input text column
whose name does not contain `date`/`time` (those become datetime columns
first) — is cast to strings before stripping, so a null in such a column
other than `name` is converted to the literal string `nan` rather than
remaining null. -/
theorem c10_text_nulls_become_nan (parseDate : Value → Option ℤ)
    (df : DataFrame) (c : Column) (hc : c ∈ df.cols)
    (hdt : c.dtype = DType.object) (hdn : isDateName c.name = false)
    (hnm : ¬ c.name = "name") :
    ∃ c2 ∈ (limpiarYTransformarPlaylists parseDate df).cols,
      c2.name = c.name ∧ c2.dtype = DType.object ∧
      c2.data = (filterByMask (dupMaskAux [] df.rowsOf) c.data).map
        (fun v => Value.vStr (stripSpecial (astypeStr v))) ∧
      (∀ v ∈ c2.data, v ≠ Value.vNull) ∧
      stripSpecial (astypeStr Value.vNull) = "nan" := by
  refine ⟨⟨c.name, DType.object,
    (filterByMask (dupMaskAux [] df.rowsOf) c.data).map
      (fun v => Value.vStr (stripSpecial (astypeStr v)))⟩,
    ?_, rfl, rfl, rfl, ?_, by decide⟩
  · unfold limpiarYTransformarPlaylists
    have h1 : (⟨c.name, c.dtype,
        filterByMask (dupMaskAux [] df.rowsOf) c.data⟩ : Column)
        ∈ (dropDuplicatesDF df).cols := by
      simp only [dropDuplicatesDF]
      exact List.mem_map_of_mem _ hc
    have h2 : (⟨c.name, c.dtype,
        filterByMask (dupMaskAux [] df.rowsOf) c.data⟩ : Column)
        ∈ (fillnaStr "name" "Unknown Playlist" (dropDuplicatesDF df)).cols := by
      simp only [fillnaStr]
      rw [List.mem_map]
      exact ⟨⟨c.name, c.dtype, filterByMask (dupMaskAux [] df.rowsOf) c.data⟩,
        h1, by simp [hnm]⟩
    have h3 : (⟨c.name, c.dtype,
        filterByMask (dupMaskAux [] df.rowsOf) c.data⟩ : Column)
        ∈ (dateStep parseDate (fillnaStr "name" "Unknown Playlist"
            (dropDuplicatesDF df))).cols := by
      simp only [dateStep]
      rw [List.mem_map]
      exact ⟨⟨c.name, c.dtype, filterByMask (dupMaskAux [] df.rowsOf) c.data⟩,
        h2, by simp [hdn]⟩
    simp only [stripStep]
    rw [List.mem_map]
    exact ⟨⟨c.name, c.dtype, filterByMask (dupMaskAux [] df.rowsOf) c.data⟩,
      h3, by simp [hdt]⟩
  · intro v hv
    rw [List.mem_map] at hv
    obtain ⟨w, _, rfl⟩ := hv
    simp

/-- The playlist frame witnessing C10: a plain text column with a null. -/
def dfC10 : DataFrame := ⟨[⟨"desc", DType.object, [Value.vNull]⟩]⟩

/-- Witness for C10 at a one-record frame with a null text cell. -/
theorem c10_text_nulls_become_nan_witness :
    (⟨"desc", DType.object, [Value.vNull]⟩ : Column) ∈ dfC10.cols ∧
    (∃ c2 ∈ (limpiarYTransformarPlaylists (fun _ => none) dfC10).cols,
      c2.name = (⟨"desc", DType.object, [Value.vNull]⟩ : Column).name ∧
      c2.dtype = DType.object ∧
      c2.data = (filterByMask (dupMaskAux [] dfC10.rowsOf)
          (⟨"desc", DType.object, [Value.vNull]⟩ : Column).data).map
        (fun v => Value.vStr (stripSpecial (astypeStr v))) ∧
      (∀ v ∈ c2.data, v ≠ Value.vNull) ∧
      stripSpecial (astypeStr Value.vNull) = "nan") := by
  refine ⟨by decide, ?_⟩
  exact c10_text_nulls_become_nan (fun _ => none) dfC10
    ⟨"desc", DType.object, [Value.vNull]⟩ (by decide) rfl (by decide)
    (by decide)

/-- The playlist frame refuting C10 as stated: a text column whose name
contains `time`. -/
def dfC10x : DataFrame := ⟨[⟨"x_time", DType.object, [Value.vNull]⟩]⟩

/-- Counterexample to C10 as stated: a null in the input text column
`x_time` is not converted to the string `nan` — the column is converted to
a datetime column first and the null survives to the output. -/
theorem c10_counterexample :
    (limpiarYTransformarPlaylists (fun _ => none) dfC10x).cols
      = [⟨"x_time", DType.datetime, [Value.vNull]⟩] ∧
    Value.vNull ≠ Value.vStr "nan" := by
  exact ⟨by decide, by decide⟩

/-! ## Popularity binning (C2) and the outlier scenario (C3) -/

lemma map_eq_self_of (l : List α) (f : α → α) (h : ∀ x ∈ l, f x = x) :
    l.map f = l := by
  induction l with
  | nil => rfl
  | cons a l ih =>
    rw [List.map_cons, h a (List.mem_cons_self a l),
      ih (fun x hx => h x (List.mem_cons_of_mem a hx))]

lemma mem_setCol (df : DataFrame) (c : Column) : c ∈ (setCol df c).cols := by
  unfold setCol
  by_cases h : df.cols.any (fun c2 => c2.name == c.name)
  · rw [if_pos h]
    rw [List.any_eq_true] at h
    obtain ⟨c2, hc2, hname⟩ := h
    simp only []
    rw [List.mem_map]
    exact ⟨c2, hc2, by rw [if_pos hname]⟩
  · rw [if_neg h]
    simp

lemma quantileQ_single (q : ℚ) (num den : ℕ) :
    quantileQ [q] num den = some q := by
  unfold quantileQ interpAt
  simp

lemma flagOutliers_eq_self (data : List Value) (q1 q3 : ℚ)
    (hin : ∀ q : ℚ, Value.vNum q ∈ data →
      ¬ (q < q1 - (3 : ℚ)/2 * (q3 - q1) ∨ q3 + (3 : ℚ)/2 * (q3 - q1) < q)) :
    flagOutliers q1 q3 data = data := by
  unfold flagOutliers
  apply map_eq_self_of
  intro v hv
  match v with
  | Value.vNull => rfl
  | Value.vStr s => rfl
  | Value.vDate t => rfl
  | Value.vNum q => exact if_neg (hin q hv)

lemma fillNulls_eq_self (data : List Value) (m : ℚ)
    (hnonull : Value.vNull ∉ data) : fillNulls m data = data := by
  unfold fillNulls
  apply map_eq_self_of
  intro v hv
  rw [if_neg]
  intro hveq
  rw [hveq] at hv
  exact hnonull hv

lemma outlierFill_no_outliers (data : List Value) (q1 q3 : ℚ)
    (h1 : quantileQ (numsOf data) 1 20 = some q1)
    (h3 : quantileQ (numsOf data) 19 20 = some q3)
    (hin : ∀ q : ℚ, Value.vNum q ∈ data →
      ¬ (q < q1 - (3 : ℚ)/2 * (q3 - q1) ∨ q3 + (3 : ℚ)/2 * (q3 - q1) < q))
    (hnonull : Value.vNull ∉ data) :
    outlierFillData data = data := by
  unfold outlierFillData
  rw [h1, h3]
  simp only []
  rw [flagOutliers_eq_self data q1 q3 hin]
  cases hm : quantileQ (numsOf data) 1 2 with
  | none => rfl
  | some m => exact fillNulls_eq_self data m hnonull

lemma outlierFillData_single (q : ℚ) :
    outlierFillData [Value.vNum q] = [Value.vNum q] := by
  have h20 : quantileQ (numsOf [Value.vNum q]) 1 20 = some q := by
    rw [show numsOf [Value.vNum q] = [q] from rfl]
    exact quantileQ_single q 1 20
  have h95 : quantileQ (numsOf [Value.vNum q]) 19 20 = some q := by
    rw [show numsOf [Value.vNum q] = [q] from rfl]
    exact quantileQ_single q 19 20
  apply outlierFill_no_outliers _ q q h20 h95
  · intro q2 hq2
    simp only [List.mem_singleton, Value.vNum.injEq] at hq2
    subst hq2
    rintro (h | h) <;> nlinarith [h]
  · simp

/-- C2 (amended): when a `popularity` column exists, the track transform
assigns a categorical `popularity_category` column obtained by mapping the
(normalised) popularity values through the binning, whose bins are the
left-open right-closed intervals of the edges [0,20,40,60,80,100] with
labels Very Low, Low, Medium, High, Very High; a popularity of exactly 0
— like any value at most 0 or above 100 — falls in no bin and gets the
null category. -/
theorem c2_popularity_binning (df : DataFrame) (c : Column)
    (hfind : (numericStep (fillnaStr "artist_name" "Unknown Artist"
        (fillnaStr "track_name" "Unknown Track"
          (dropDuplicatesDF df)))).cols.find?
        (fun c2 => c2.name == "popularity") = some c) :
    (∃ c2 ∈ (limpiarYTransformarTracks df).cols,
      c2.name = "popularity_category" ∧ c2.dtype = DType.category ∧
      c2.data = c.data.map popCut) ∧
    (∀ q : ℚ,
      ((0 < q ∧ q ≤ 20) → popCut (Value.vNum q) = Value.vStr "Very Low") ∧
      ((20 < q ∧ q ≤ 40) → popCut (Value.vNum q) = Value.vStr "Low") ∧
      ((40 < q ∧ q ≤ 60) → popCut (Value.vNum q) = Value.vStr "Medium") ∧
      ((60 < q ∧ q ≤ 80) → popCut (Value.vNum q) = Value.vStr "High") ∧
      ((80 < q ∧ q ≤ 100) → popCut (Value.vNum q) = Value.vStr "Very High") ∧
      ((q ≤ 0 ∨ 100 < q) → popCut (Value.vNum q) = Value.vNull)) := by
  constructor
  · unfold limpiarYTransformarTracks popStep
    rw [hfind]
    exact ⟨⟨"popularity_category", DType.category, c.data.map popCut⟩,
      mem_setCol _ _, rfl, rfl, rfl⟩
  · intro q
    refine ⟨?_, ?_, ?_, ?_, ?_, ?_⟩
    · rintro ⟨ha, hb⟩
      simp only [popCut]
      rw [if_pos ⟨ha, hb⟩]
    · rintro ⟨ha, hb⟩
      simp only [popCut]
      rw [if_neg (by rintro ⟨_, h2⟩; linarith), if_pos ⟨ha, hb⟩]
    · rintro ⟨ha, hb⟩
      simp only [popCut]
      rw [if_neg (by rintro ⟨_, h2⟩; linarith),
        if_neg (by rintro ⟨_, h2⟩; linarith), if_pos ⟨ha, hb⟩]
    · rintro ⟨ha, hb⟩
      simp only [popCut]
      rw [if_neg (by rintro ⟨_, h2⟩; linarith),
        if_neg (by rintro ⟨_, h2⟩; linarith),
        if_neg (by rintro ⟨_, h2⟩; linarith), if_pos ⟨ha, hb⟩]
    · rintro ⟨ha, hb⟩
      simp only [popCut]
      rw [if_neg (by rintro ⟨_, h2⟩; linarith),
        if_neg (by rintro ⟨_, h2⟩; linarith),
        if_neg (by rintro ⟨_, h2⟩; linarith),
        if_neg (by rintro ⟨_, h2⟩; linarith), if_pos ⟨ha, hb⟩]
    · rintro (h0 | h100)
      · simp only [popCut]
        rw [if_neg (by rintro ⟨h1, _⟩; linarith),
          if_neg (by rintro ⟨h1, _⟩; linarith),
          if_neg (by rintro ⟨h1, _⟩; linarith),
          if_neg (by rintro ⟨h1, _⟩; linarith),
          if_neg (by rintro ⟨h1, _⟩; linarith)]
      · simp only [popCut]
        rw [if_neg (by rintro ⟨_, h2⟩; linarith),
          if_neg (by rintro ⟨_, h2⟩; linarith),
          if_neg (by rintro ⟨_, h2⟩; linarith),
          if_neg (by rintro ⟨_, h2⟩; linarith),
          if_neg (by rintro ⟨_, h2⟩; linarith)]

/-- The track frame witnessing C2: one record with popularity 50. -/
def dfC2w : DataFrame := ⟨[⟨"popularity", DType.numeric, [Value.vNum 50]⟩]⟩

/-- Witness for C2 at a one-record frame with popularity 50. -/
theorem c2_popularity_binning_witness :
    (numericStep (fillnaStr "artist_name" "Unknown Artist"
        (fillnaStr "track_name" "Unknown Track"
          (dropDuplicatesDF dfC2w)))).cols.find?
        (fun c2 => c2.name == "popularity")
      = some ⟨"popularity", DType.numeric,
          outlierFillData [Value.vNum 50]⟩ ∧
    (∃ c2 ∈ (limpiarYTransformarTracks dfC2w).cols,
      c2.name = "popularity_category" ∧ c2.dtype = DType.category ∧
      c2.data = (outlierFillData [Value.vNum 50]).map popCut) ∧
    popCut (Value.vNum 10) = Value.vStr "Very Low" := by
  have h := c2_popularity_binning dfC2w
    ⟨"popularity", DType.numeric, outlierFillData [Value.vNum 50]⟩ rfl
  exact ⟨rfl, h.1, (h.2 10).1 (by norm_num)⟩

/-- The track frame refuting C2 as stated: popularity exactly 0. -/
def dfC2x : DataFrame := ⟨[⟨"popularity", DType.numeric, [Value.vNum 0]⟩]⟩

/-- Counterexample to C2 as stated: a popularity of exactly 0 gets the
null category, not the lowest bin Very Low — the default `pd.cut` bins
are left-open. -/
theorem c2_counterexample :
    (limpiarYTransformarTracks dfC2x).cols
      = [⟨"popularity", DType.numeric, [Value.vNum 0]⟩,
         ⟨"popularity_category", DType.category, [Value.vNull]⟩] ∧
    Value.vNull ≠ Value.vStr "Very Low" := by
  constructor
  · unfold limpiarYTransformarTracks
    rw [show fillnaStr "artist_name" "Unknown Artist"
        (fillnaStr "track_name" "Unknown Track" (dropDuplicatesDF dfC2x))
        = dfC2x from by decide]
    rw [show numericStep dfC2x
        = (⟨[⟨"popularity", DType.numeric,
            outlierFillData [Value.vNum 0]⟩]⟩ : DataFrame) from rfl]
    rw [outlierFillData_single]
    decide
  · decide

/-- The numeric column of the C3 scenario. -/
def dataC3 : List Value :=
  [Value.vNum 1, Value.vNum 2, Value.vNum 3, Value.vNum 4, Value.vNum 1000]

/-- The track frame of the C3 scenario. -/
def dfC3 : DataFrame := ⟨[⟨"x", DType.numeric, dataC3⟩]⟩

lemma q1C3 : quantileQ [(1 : ℚ), 2, 3, 4, 1000] 1 20 = some (6/5) := by
  unfold quantileQ interpAt
  rw [show List.insertionSort (· ≤ ·) [(1 : ℚ), 2, 3, 4, 1000]
      = [1, 2, 3, 4, 1000] from rfl]
  norm_num [List.getD]

lemma q3C3 : quantileQ [(1 : ℚ), 2, 3, 4, 1000] 19 20 = some (4004/5) := by
  unfold quantileQ interpAt
  rw [show List.insertionSort (· ≤ ·) [(1 : ℚ), 2, 3, 4, 1000]
      = [1, 2, 3, 4, 1000] from rfl]
  norm_num [List.getD]

lemma outlierFillDataC3 : outlierFillData dataC3 = dataC3 := by
  apply outlierFill_no_outliers _ (6/5) (4004/5)
  · rw [show numsOf dataC3 = [(1 : ℚ), 2, 3, 4, 1000] from rfl]
    exact q1C3
  · rw [show numsOf dataC3 = [(1 : ℚ), 2, 3, 4, 1000] from rfl]
    exact q3C3
  · intro q hq
    simp only [dataC3, List.mem_cons, List.not_mem_nil, or_false,
      Value.vNum.injEq] at hq
    rcases hq with rfl | rfl | rfl | rfl | rfl <;>
      (rintro (h | h) <;> norm_num at h)
  · simp [dataC3]

/-- C3 (amended): on the numeric column [1,2,3,4,1000] the outlier step
computes q1 = 6/5 and q3 = 4004/5 (the 5th and 95th percentile of these 5
values), so the bounds q1 - 1.5*iqr and q3 + 1.5*iqr enclose 1000: no
value is flagged and the column is unchanged — in particular 1000 is not
replaced by 2.5. -/
theorem c3_scenario_no_outlier_flagged :
    quantileQ [(1 : ℚ), 2, 3, 4, 1000] 1 20 = some (6/5) ∧
    quantileQ [(1 : ℚ), 2, 3, 4, 1000] 19 20 = some (4004/5) ∧
    outlierFillData dataC3 = dataC3 ∧
    (limpiarYTransformarTracks dfC3).cols = [⟨"x", DType.numeric, dataC3⟩] := by
  refine ⟨q1C3, q3C3, outlierFillDataC3, ?_⟩
  unfold limpiarYTransformarTracks
  rw [show fillnaStr "artist_name" "Unknown Artist"
      (fillnaStr "track_name" "Unknown Track" (dropDuplicatesDF dfC3))
      = dfC3 from by decide]
  rw [show numericStep dfC3
      = (⟨[⟨"x", DType.numeric, outlierFillData dataC3⟩]⟩ : DataFrame)
      from rfl]
  rw [outlierFillDataC3]
  decide

/-- Counterexample to C3 as stated: the transform leaves the column
[1,2,3,4,1000] unchanged — 1000 still present, 2.5 absent — instead of
replacing 1000 by the median 2.5 of the remaining values. -/
theorem c3_counterexample :
    (limpiarYTransformarTracks dfC3).cols
      = [⟨"x", DType.numeric, dataC3⟩] ∧
    Value.vNum 1000 ∈ dataC3 ∧
    Value.vNum (5/2) ∉ dataC3 := by
  refine ⟨?_, by decide, ?_⟩
  · unfold limpiarYTransformarTracks
    rw [show fillnaStr "artist_name" "Unknown Artist"
        (fillnaStr "track_name" "Unknown Track" (dropDuplicatesDF dfC3))
        = dfC3 from by decide]
    rw [show numericStep dfC3
        = (⟨[⟨"x", DType.numeric, outlierFillData dataC3⟩]⟩ : DataFrame)
        from rfl]
    rw [outlierFillDataC3]
    decide
  · simp only [dataC3, List.mem_cons, List.not_mem_nil, or_false,
      Value.vNum.injEq]
    push_neg
    refine ⟨by norm_num, by norm_num, by norm_num, by norm_num, by norm_num⟩

/-! ## Quantile interpolation bounds

The key analytic fact behind C1: when a column has at least one numeric
value, at least one of its values lies inside the outlier bounds
`[q1 - 1.5*iqr, q3 + 1.5*iqr]`, so the median taken after outlier
suppression is defined and the null fill leaves no null behind. -/

lemma sorted_getD_mono (s : List ℚ) (hs : s.Sorted (· ≤ ·)) (i j : ℕ)
    (hij : i ≤ j) (hj : j < s.length) : s.getD i 0 ≤ s.getD j 0 := by
  rw [List.getD_eq_getElem s 0 (lt_of_le_of_lt hij hj),
    List.getD_eq_getElem s 0 hj]
  rcases lt_or_eq_of_le hij with h2 | rfl
  · exact hs.rel_get_of_lt (by simpa using h2)
  · exact le_refl _

lemma interp_b_ge_a (s : List ℚ) (hs : s.Sorted (· ≤ ·)) (k : ℕ)
    (hk : k < s.length) : s.getD k 0 ≤ s.getD (k + 1) (s.getD k 0) := by
  by_cases h : k + 1 < s.length
  · rw [List.getD_eq_getElem s _ h, ← List.getD_eq_getElem s 0 h]
    exact sorted_getD_mono s hs k (k + 1) (by omega) h
  · have hb : s.getD (k + 1) (s.getD k 0) = s.getD k 0 :=
      List.getD_eq_default s (s.getD k 0) (by omega)
    rw [hb]

lemma interp_k_le_t (t num den : ℕ) (hden : 0 < den) (hnum : num ≤ den) :
    num * t / den ≤ t :=
  calc num * t / den ≤ den * t / den :=
        Nat.div_le_div_right (Nat.mul_le_mul_right t hnum)
    _ = t := Nat.mul_div_cancel_left t hden

lemma interpAt_ge (s : List ℚ) (hs : s.Sorted (· ≤ ·)) (num den : ℕ)
    (hden : 0 < den) (hne : s ≠ []) (hnum : num ≤ den) :
    s.getD (num * (s.length - 1) / den) 0 ≤ interpAt s num den := by
  unfold interpAt
  simp only []
  have hlenpos : 0 < s.length := List.length_pos.mpr hne
  set t := s.length - 1 with ht
  set k := num * t / den with hk
  have hktle : k ≤ t := interp_k_le_t t num den hden hnum
  have hklen : k < s.length := by omega
  have hg0 : (0 : ℚ) ≤ ((num * t % den : ℕ) : ℚ) / (den : ℚ) := by positivity
  have hba := interp_b_ge_a s hs k hklen
  exact le_add_of_nonneg_right (mul_nonneg hg0 (sub_nonneg.mpr hba))

lemma interpAt_le (s : List ℚ) (hs : s.Sorted (· ≤ ·)) (num den : ℕ)
    (hden : 0 < den) (hne : s ≠ []) (hnum : num ≤ den) :
    interpAt s num den
      ≤ s.getD (min (num * (s.length - 1) / den + 1) (s.length - 1)) 0 := by
  unfold interpAt
  simp only []
  have hlenpos : 0 < s.length := List.length_pos.mpr hne
  set t := s.length - 1 with ht
  set k := num * t / den with hk
  have hktle : k ≤ t := interp_k_le_t t num den hden hnum
  by_cases hcase : k + 1 ≤ t
  · have hmin : min (k + 1) t = k + 1 := by omega
    rw [hmin]
    have hk1len : k + 1 < s.length := by omega
    have hb : s.getD (k + 1) (s.getD k 0) = s.getD (k + 1) 0 := by
      rw [List.getD_eq_getElem s _ hk1len, List.getD_eq_getElem s 0 hk1len]
    rw [hb]
    have hg1 : ((num * t % den : ℕ) : ℚ) / (den : ℚ) ≤ 1 := by
      rw [div_le_one (by exact_mod_cast hden)]
      exact_mod_cast le_of_lt (Nat.mod_lt _ hden)
    have hab : s.getD k 0 ≤ s.getD (k + 1) 0 :=
      sorted_getD_mono s hs k (k + 1) (by omega) hk1len
    linarith [mul_le_of_le_one_left (sub_nonneg.mpr hab) hg1]
  · have hkt2 : k = t := by omega
    have hmin : min (k + 1) t = t := by omega
    rw [hmin]
    have hb : s.getD (k + 1) (s.getD k 0) = s.getD k 0 :=
      List.getD_eq_default s (s.getD k 0) (by omega)
    rw [hb, hkt2]
    simp

lemma quantileQ_eq_some (vals : List ℚ) (hne : vals ≠ []) (num den : ℕ) :
    quantileQ vals num den
      = some (interpAt (List.insertionSort (· ≤ ·) vals) num den) := by
  unfold quantileQ
  rw [if_neg (by simpa [List.isEmpty_iff] using hne)]

lemma exists_within_bounds (vals : List ℚ) (hne : vals ≠ []) (q1 q3 : ℚ)
    (h1 : quantileQ vals 1 20 = some q1)
    (h3 : quantileQ vals 19 20 = some q3) :
    ∃ y ∈ vals, q1 - (3 : ℚ)/2 * (q3 - q1) ≤ y ∧
      y ≤ q3 + (3 : ℚ)/2 * (q3 - q1) := by
  have hsort : (List.insertionSort (· ≤ ·) vals).Sorted (· ≤ ·) :=
    List.sorted_insertionSort _ vals
  have hperm := List.perm_insertionSort (· ≤ ·) vals
  set s := List.insertionSort (· ≤ ·) vals with hsdef
  have hsne : s ≠ [] := by
    intro h
    exact hne ((h ▸ hperm).symm.eq_nil)
  have hq1 : q1 = interpAt s 1 20 := by
    rw [quantileQ_eq_some vals hne 1 20] at h1
    exact (Option.some.inj h1).symm
  have hq3 : q3 = interpAt s 19 20 := by
    rw [quantileQ_eq_some vals hne 19 20] at h3
    exact (Option.some.inj h3).symm
  have hslen : 0 < s.length := List.length_pos.mpr hsne
  by_cases hT : s.length - 1 = 1
  · have hlen2 : s.length = 2 := by omega
    obtain ⟨y0, y1, hsy⟩ := List.length_eq_two.mp hlen2
    have hy01 : y0 ≤ y1 := by
      have hs2 := hsort
      rw [hsy] at hs2
      rcases List.sorted_cons.mp hs2 with ⟨hrel, _⟩
      exact hrel y1 (List.mem_cons_self y1 [])
    have hq1v : q1 = y0 + 1/20 * (y1 - y0) := by
      rw [hq1, hsy]
      unfold interpAt
      norm_num [List.getD]
    have hq3v : q3 = y0 + 19/20 * (y1 - y0) := by
      rw [hq3, hsy]
      unfold interpAt
      norm_num [List.getD]
    refine ⟨y0, ?_, ?_, ?_⟩
    · exact hperm.subset (by rw [hsy]; exact List.mem_cons_self _ _)
    · rw [hq1v, hq3v]; linarith
    · rw [hq1v, hq3v]; linarith
  · set t := s.length - 1 with ht
    set k1 := 1 * t / 20 with hk1
    set k3 := 19 * t / 20 with hk3
    have hkey : min (k1 + 1) t ≤ k3 := by omega
    have hk3t : k3 ≤ t := interp_k_le_t t 19 20 (by norm_num) (by norm_num)
    have hile : min (k1 + 1) t < s.length := by omega
    have hk3len : k3 < s.length := by omega
    have hy1 : q1 ≤ s.getD (min (k1 + 1) t) 0 := by
      rw [hq1]
      exact interpAt_le s hsort 1 20 (by norm_num) hsne (by norm_num)
    have hy3 : s.getD (min (k1 + 1) t) 0 ≤ s.getD k3 0 :=
      sorted_getD_mono s hsort _ k3 hkey hk3len
    have hk3q : s.getD k3 0 ≤ q3 := by
      rw [hq3]
      exact interpAt_ge s hsort 19 20 (by norm_num) hsne (by norm_num)
    refine ⟨s.getD (min (k1 + 1) t) 0, ?_, ?_, ?_⟩
    · refine hperm.subset ?_
      rw [List.getD_eq_getElem s 0 hile]
      exact List.getElem_mem hile
    · linarith
    · linarith

/-! ## No nulls survive the outlier step on a column with a numeric value -/

lemma mem_numsOf (q : ℚ) (data : List Value) :
    q ∈ numsOf data ↔ Value.vNum q ∈ data := by
  unfold numsOf
  rw [List.mem_filterMap]
  constructor
  · rintro ⟨v, hv, hveq⟩
    cases v with
    | vNull => simp at hveq
    | vNum q2 =>
      simp at hveq
      exact hveq ▸ hv
    | vStr s => simp at hveq
    | vDate t => simp at hveq
  · intro h
    exact ⟨Value.vNum q, h, rfl⟩

lemma fillNulls_no_nulls (m : ℚ) (l : List Value) :
    ∀ v ∈ fillNulls m l, v ≠ Value.vNull := by
  intro v hv
  unfold fillNulls at hv
  rw [List.mem_map] at hv
  obtain ⟨w, _, rfl⟩ := hv
  by_cases hw : w = Value.vNull
  · rw [if_pos hw]; simp
  · rw [if_neg hw]; exact hw

lemma mem_flagOutliers_of_inbounds (q1 q3 y : ℚ) (data : List Value)
    (hy : Value.vNum y ∈ data)
    (hlb : q1 - (3 : ℚ)/2 * (q3 - q1) ≤ y)
    (hub : y ≤ q3 + (3 : ℚ)/2 * (q3 - q1)) :
    Value.vNum y ∈ flagOutliers q1 q3 data := by
  unfold flagOutliers
  rw [List.mem_map]
  refine ⟨Value.vNum y, hy, ?_⟩
  show (if y < q1 - (3 : ℚ)/2 * (q3 - q1) ∨ q3 + (3 : ℚ)/2 * (q3 - q1) < y
      then Value.vNull else Value.vNum y) = Value.vNum y
  exact if_neg (by push_neg; exact ⟨hlb, hub⟩)

lemma outlierFillData_no_nulls (data : List Value) (q0 : ℚ)
    (hq : Value.vNum q0 ∈ data) :
    ∀ v ∈ outlierFillData data, v ≠ Value.vNull := by
  have hvne : numsOf data ≠ [] := by
    intro h
    have := (mem_numsOf q0 data).mpr hq
    rw [h] at this
    exact List.not_mem_nil _ this
  obtain ⟨q1, h1⟩ : ∃ q1, quantileQ (numsOf data) 1 20 = some q1 :=
    ⟨_, quantileQ_eq_some _ hvne 1 20⟩
  obtain ⟨q3, h3⟩ : ∃ q3, quantileQ (numsOf data) 19 20 = some q3 :=
    ⟨_, quantileQ_eq_some _ hvne 19 20⟩
  obtain ⟨y, hy, hylb, hyub⟩ := exists_within_bounds (numsOf data) hvne q1 q3 h1 h3
  have hymem : Value.vNum y ∈ data := (mem_numsOf y data).mp hy
  have hyflag : Value.vNum y ∈ flagOutliers q1 q3 data :=
    mem_flagOutliers_of_inbounds q1 q3 y data hymem hylb hyub
  have hfne : numsOf (flagOutliers q1 q3 data) ≠ [] := by
    intro h
    have hyn : y ∈ numsOf (flagOutliers q1 q3 data) :=
      (mem_numsOf _ _).mpr hyflag
    rw [h] at hyn
    exact List.not_mem_nil _ hyn
  obtain ⟨m, hm⟩ :
      ∃ m, quantileQ (numsOf (flagOutliers q1 q3 data)) 1 2 = some m :=
    ⟨_, quantileQ_eq_some _ hfne 1 2⟩
  unfold outlierFillData
  rw [h1, h3]
  simp only []
  rw [hm]
  exact fillNulls_no_nulls m _

/-! ## Duplicate removal keeps a numeric value of every column -/

lemma dupMaskAux_length [DecidableEq α] (l : List α) :
    ∀ seen : List α, (dupMaskAux seen l).length = l.length := by
  induction l with
  | nil => intro seen; rfl
  | cons r rs ih =>
    intro seen
    show ((if r ∈ seen then false else true) :: dupMaskAux (r :: seen) rs).length
      = (r :: rs).length
    simp [ih]

lemma dupMaskAux_getD_true (l : List (List Value)) :
    ∀ (seen : List (List Value)) (j : ℕ), j < l.length →
      ((dupMaskAux seen l).getD j false = true ↔
        (l.getD j [] ∉ seen ∧ ∀ j2 < j, l.getD j2 [] ≠ l.getD j [])) := by
  induction l with
  | nil =>
    intro seen j hj
    simp at hj
  | cons r rs ih =>
    intro seen j hj
    rw [show dupMaskAux seen (r :: rs)
        = (if r ∈ seen then false else true) :: dupMaskAux (r :: seen) rs
        from by simp [dupMaskAux]]
    cases j with
    | zero =>
      rw [List.getD_cons_zero, List.getD_cons_zero]
      by_cases hr : r ∈ seen <;> simp [hr]
    | succ j =>
      rw [List.getD_cons_succ, List.getD_cons_succ]
      rw [ih (r :: seen) j (by simpa using hj)]
      constructor
      · rintro ⟨hnotin, hfirst⟩
        refine ⟨fun hmem => hnotin (List.mem_cons_of_mem r hmem), ?_⟩
        intro j2 hj2
        cases j2 with
        | zero =>
          rw [List.getD_cons_zero]
          intro heq
          exact hnotin (heq ▸ List.mem_cons_self r seen)
        | succ j2 =>
          rw [List.getD_cons_succ]
          exact hfirst j2 (by omega)
      · rintro ⟨hnotin, hfirst⟩
        constructor
        · rw [List.mem_cons]
          push_neg
          refine ⟨?_, hnotin⟩
          have h0 := hfirst 0 (by omega)
          rw [List.getD_cons_zero] at h0
          exact fun h => h0 (by rw [h])
        · intro j2 hj2
          have hj2s := hfirst (j2 + 1) (by omega)
          rw [List.getD_cons_succ] at hj2s
          exact hj2s

lemma getD_mem_filterByMask (mask : List Bool) :
    ∀ (xs : List Value) (j : ℕ), j < xs.length → j < mask.length →
      mask.getD j false = true →
      xs.getD j Value.vNull ∈ filterByMask mask xs := by
  induction mask with
  | nil =>
    intro xs j _ hjm
    simp at hjm
  | cons b bs ih =>
    intro xs j hj hjm ht
    cases xs with
    | nil => simp at hj
    | cons x xs =>
      cases j with
      | zero =>
        rw [List.getD_cons_zero] at ht
        rw [List.getD_cons_zero]
        rw [ht]
        show x ∈ x :: filterByMask bs xs
        exact List.mem_cons_self x _
      | succ j =>
        rw [List.getD_cons_succ] at ht ⊢
        cases b with
        | true =>
          show xs.getD j Value.vNull ∈ x :: filterByMask bs xs
          exact List.mem_cons_of_mem x
            (ih xs j (by simpa using hj) (by simpa using hjm) ht)
        | false =>
          show xs.getD j Value.vNull ∈ filterByMask bs xs
          exact ih xs j (by simpa using hj) (by simpa using hjm) ht

lemma rowsOf_length (df : DataFrame) : df.rowsOf.length = df.nrows := by
  unfold DataFrame.rowsOf
  simp

lemma rowsOf_getD_col (df : DataFrame) (p : ℕ) (hp : p < df.cols.length)
    (j : ℕ) (hj : j < df.nrows) :
    (df.rowsOf.getD j []).getD p Value.vNull
      = (df.cols.getD p ⟨"", DType.object, []⟩).data.getD j Value.vNull := by
  have hrow : df.rowsOf.getD j [] = rowAt df j := by
    unfold DataFrame.rowsOf
    rw [List.getD_eq_getElem (List.map (rowAt df) (List.range df.nrows)) []
      (by simpa using hj)]
    rw [List.getElem_map, List.getElem_range]
  rw [hrow]
  unfold rowAt
  rw [List.getD_eq_getElem (df.cols.map fun c => c.data.getD j Value.vNull)
    Value.vNull (by simpa using hp)]
  rw [List.getElem_map, List.getD_eq_getElem df.cols _ hp]

lemma filterByMask_dedup_keeps_num (df : DataFrame) (hdf : df.uniform = true)
    (c : Column) (hc : c ∈ df.cols) (q0 : ℚ) (hq : Value.vNum q0 ∈ c.data) :
    Value.vNum q0 ∈ filterByMask (dupMaskAux [] df.rowsOf) c.data := by
  obtain ⟨i, hi, hieq⟩ := List.getElem_of_mem hq
  obtain ⟨p, hp, hpeq⟩ := List.getElem_of_mem hc
  have hclen : c.data.length = df.nrows := by
    unfold DataFrame.uniform at hdf
    have := List.all_eq_true.mp hdf c hc
    simpa using this
  have hrowslen : df.rowsOf.length = df.nrows := rowsOf_length df
  have hval : ∀ j, j < df.nrows →
      (df.rowsOf.getD j []).getD p Value.vNull
        = c.data.getD j Value.vNull := by
    intro j hj
    rw [rowsOf_getD_col df p hp j hj, List.getD_eq_getElem df.cols _ hp, hpeq]
  have hilen : i < df.nrows := by omega
  have hex : ∃ j, j < df.nrows ∧ df.rowsOf.getD j [] = df.rowsOf.getD i [] :=
    ⟨i, hilen, rfl⟩
  obtain ⟨hj0lt, hj0eq⟩ := Nat.find_spec hex
  have hj0le : Nat.find hex ≤ i := Nat.find_min' hex ⟨hilen, rfl⟩
  have hmask : (dupMaskAux [] df.rowsOf).getD (Nat.find hex) false = true := by
    rw [dupMaskAux_getD_true df.rowsOf [] (Nat.find hex)
      (by rw [hrowslen]; exact hj0lt)]
    refine ⟨List.not_mem_nil _, ?_⟩
    intro j2 hj2 heq
    exact Nat.find_min hex hj2 ⟨by omega, by rw [heq, hj0eq]⟩
  have hv0 : c.data.getD (Nat.find hex) Value.vNull = Value.vNum q0 := by
    rw [← hval (Nat.find hex) hj0lt, hj0eq, hval i hilen,
      List.getD_eq_getElem c.data _ hi, hieq]
  have hres := getD_mem_filterByMask (dupMaskAux [] df.rowsOf) c.data
    (Nat.find hex) (by omega) (by rw [dupMaskAux_length]; omega) hmask
  rw [hv0] at hres
  exact hres

/-! ## C1: the track transform leaves no null in numeric columns -/

lemma hasNumVal_exists (c : Column) (h : hasNumVal c = true) :
    ∃ q : ℚ, Value.vNum q ∈ c.data := by
  unfold hasNumVal at h
  rw [List.any_eq_true] at h
  obtain ⟨v, hv, hveq⟩ := h
  cases v with
  | vNull => simp at hveq
  | vNum q => exact ⟨q, hv⟩
  | vStr s => simp at hveq
  | vDate t => simp at hveq

lemma fillnaStr_numeric_trace (n f : String) (D : DataFrame) (c : Column)
    (hc : c ∈ (fillnaStr n f D).cols) (hdt : c.dtype = DType.numeric) :
    ∃ c0 ∈ D.cols, c0.dtype = DType.numeric ∧
      (∀ q : ℚ, Value.vNum q ∈ c0.data → Value.vNum q ∈ c.data) := by
  unfold fillnaStr at hc
  rw [List.mem_map] at hc
  obtain ⟨c0, hc0, hceq⟩ := hc
  by_cases hn : c0.name = n
  · rw [if_pos hn] at hceq
    refine ⟨c0, hc0, ?_, ?_⟩
    · rw [← hceq] at hdt
      simp only [] at hdt
      by_cases hcond : c0.dtype = DType.numeric ∧ Value.vNull ∈ c0.data
      · rw [if_pos hcond] at hdt
        cases hdt
      · rw [if_neg hcond] at hdt
        exact hdt
    · intro q hq
      rw [← hceq]
      simp only []
      rw [List.mem_map]
      exact ⟨Value.vNum q, hq, by rw [if_neg (by simp)]⟩
  · rw [if_neg hn] at hceq
    subst hceq
    exact ⟨c0, hc0, hdt, fun q hq => hq⟩

lemma dropDuplicatesDF_trace (df : DataFrame) (c : Column)
    (hc : c ∈ (dropDuplicatesDF df).cols) :
    ∃ c0 ∈ df.cols, c0.dtype = c.dtype ∧
      c.data = filterByMask (dupMaskAux [] df.rowsOf) c0.data := by
  unfold dropDuplicatesDF at hc
  rw [List.mem_map] at hc
  obtain ⟨c0, hc0, hceq⟩ := hc
  exact ⟨c0, hc0, by rw [← hceq], by rw [← hceq]⟩

lemma popStep_numeric_mem (Y : DataFrame) (c : Column)
    (hc : c ∈ (popStep Y).cols) (hdt : c.dtype = DType.numeric) :
    c ∈ Y.cols := by
  unfold popStep at hc
  cases hfind : Y.cols.find? (fun c2 => c2.name == "popularity") with
  | none =>
    rw [hfind] at hc
    exact hc
  | some cpop =>
    rw [hfind] at hc
    unfold setCol at hc
    simp only [] at hc
    by_cases hany : Y.cols.any (fun c2 =>
      c2.name == (⟨"popularity_category", DType.category,
        cpop.data.map popCut⟩ : Column).name)
    · rw [if_pos hany] at hc
      simp only [] at hc
      rw [List.mem_map] at hc
      obtain ⟨c0, hc0, hceq⟩ := hc
      by_cases hb : (c0.name == "popularity_category") = true
      · rw [if_pos hb] at hceq
        rw [← hceq] at hdt
        cases hdt
      · rw [if_neg hb] at hceq
        subst hceq
        exact hc0
    · rw [if_neg hany] at hc
      simp only [] at hc
      rw [List.mem_append] at hc
      rcases hc with hc | hc
      · exact hc
      · rw [List.mem_singleton] at hc
        rw [hc] at hdt
        cases hdt

/-- C1 (amended): for every uniform input batch whose every numeric column
contains at least one non-null (numeric) value, after the track transform
every numeric column of the output contains no null: outlier suppression
can never flag every value, so the median fill is always defined. -/
theorem c1_track_numeric_no_nulls (df : DataFrame)
    (hu : df.uniform = true)
    (hnum : ∀ c ∈ df.cols, c.dtype = DType.numeric → hasNumVal c = true) :
    ∀ c ∈ (limpiarYTransformarTracks df).cols,
      c.dtype = DType.numeric → ∀ v ∈ c.data, v ≠ Value.vNull := by
  intro c hc hdt
  unfold limpiarYTransformarTracks at hc
  have hc2 := popStep_numeric_mem _ c hc hdt
  unfold numericStep at hc2
  rw [List.mem_map] at hc2
  obtain ⟨c3, hc3, hc3eq⟩ := hc2
  by_cases hdt3 : c3.dtype = DType.numeric
  · rw [if_pos hdt3] at hc3eq
    obtain ⟨c4, hc4, hdt4, hpres4⟩ :=
      fillnaStr_numeric_trace "artist_name" "Unknown Artist" _ c3 hc3 hdt3
    obtain ⟨c5, hc5, hdt5, hpres5⟩ :=
      fillnaStr_numeric_trace "track_name" "Unknown Track" _ c4 hc4 hdt4
    obtain ⟨c6, hc6, hdt6, hdata5⟩ := dropDuplicatesDF_trace df c5 hc5
    obtain ⟨q0, hq0⟩ := hasNumVal_exists c6 (hnum c6 hc6 (by rw [hdt6, hdt5]))
    have hq5 : Value.vNum q0 ∈ c5.data := by
      rw [hdata5]
      exact filterByMask_dedup_keeps_num df hu c6 hc6 q0 hq0
    have hq3 : Value.vNum q0 ∈ c3.data := hpres4 q0 (hpres5 q0 hq5)
    rw [← hc3eq]
    exact outlierFillData_no_nulls c3.data q0 hq3
  · rw [if_neg hdt3] at hc3eq
    subst hc3eq
    exact absurd hdt hdt3

/-- The track frame refuting C1 as stated: one all-null numeric column. -/
def dfC1x : DataFrame := ⟨[⟨"x", DType.numeric, [Value.vNull]⟩]⟩

/-- Counterexample to C1 as stated: on a batch whose numeric column is all
null, both quantiles are NaN, nothing is flagged and the median fill is a
NaN no-op, so the null survives to the output numeric column. -/
theorem c1_counterexample :
    (limpiarYTransformarTracks dfC1x).cols
      = [⟨"x", DType.numeric, [Value.vNull]⟩] ∧
    Value.vNull ∈ [Value.vNull] := ⟨by decide, by decide⟩

/-- The track frame witnessing C1: a numeric column with a null next to a
numeric value. -/
def dfC1w : DataFrame :=
  ⟨[⟨"x", DType.numeric, [Value.vNum 5, Value.vNull]⟩]⟩

/-- Witness for C1 at a two-record frame with one null. -/
theorem c1_track_numeric_no_nulls_witness :
    dfC1w.uniform = true ∧
    (∀ c ∈ dfC1w.cols, c.dtype = DType.numeric → hasNumVal c = true) ∧
    (∀ c ∈ (limpiarYTransformarTracks dfC1w).cols,
      c.dtype = DType.numeric → ∀ v ∈ c.data, v ≠ Value.vNull) :=
  ⟨by decide, by decide,
    c1_track_numeric_no_nulls dfC1w (by decide) (by decide)⟩

end Etl
